import Mathlib

/-!
Verification of the episode-extraction core of a Jeopardy archive parser
written in Go (package parse, functions parseEpisode and parseRound).

The Go code walks a goquery document.  We embed it shallowly: every DOM
query the code performs (Find + Text / Attr on a fixed selector) becomes a
field of a structure holding the result of that query, and the control flow of
parseEpisode / parseRound is transliterated into pure Lean functions.
Strings are Lean strings; the Go strings-package operations used by the
code (TrimSpace, TrimPrefix, HasPrefix, Contains, ReplaceAll with a
single-character pattern, Join) are defined below on the character list of
the string, matching their Go semantics.
-/

/-- Character class of Go unicode.IsSpace (the Unicode White_Space
property): ASCII \t \n \v \f \r and space, NEL, NBSP and the Zs code
points. Used by strings.TrimSpace. -/
def isGoSpace (c : Char) : Bool :=
  let n := c.toNat
  (9 ≤ n && n ≤ 13) || n == 32 || n == 0x85 || n == 0xA0 || n == 0x1680 ||
    (0x2000 ≤ n && n ≤ 0x200A) || n == 0x2028 || n == 0x2029 || n == 0x202F ||
    n == 0x205F || n == 0x3000

/-- Go strings.TrimSpace: drop leading and trailing white space. -/
def strTrimSpace (s : String) : String :=
  ⟨(((s.data.dropWhile isGoSpace).reverse).dropWhile isGoSpace).reverse⟩

/-- Go strings.HasPrefix. -/
def strStarts (s p : String) : Bool :=
  p.data.isPrefixOf s.data

/-- Go strings.TrimPrefix: remove the leading prefix string when present,
otherwise return the string unchanged. -/
def strDropLeading (s p : String) : String :=
  if strStarts s p then ⟨s.data.drop p.data.length⟩ else s

/-- Go strings.ReplaceAll(s, ",", "") — the pattern is a single character,
so replacing it by the empty string is exactly filtering it out. -/
def removeCommas (s : String) : String :=
  ⟨s.data.filter (fun c => !(c == ','))⟩

/-- Substring occurrence on character lists: sub occurs in l at some
position (at position 0 it is a prefix, otherwise it occurs in the
tail). -/
def hasSubList (sub : List Char) : List Char → Bool
  | [] => sub.isEmpty
  | c :: rest => sub.isPrefixOf (c :: rest) || hasSubList sub rest

/-- Go strings.Contains (substring containment). -/
def strContainsSub (s sub : String) : Bool :=
  hasSubList sub.data s.data

/-- One td.clue_text element inside a grid clue cell: its optional style
attribute, its (whitespace-raw) text, and its optional id attribute. -/
structure ClueTextEl where
  style : Option String
  text : String
  id : Option String
deriving DecidableEq, Repr

/-- One response td in the table row holding a clue cell, keyed by its id
attribute; correctResponseText is the text of em.correct_response inside
it (empty when that element is absent).  An absent ancestor tr is
modelled by an empty list of responses, which the code treats the same
way (the answer stays empty). -/
structure RespTd where
  id : String
  correctResponseText : String
deriving DecidableEq, Repr

/-- One td.clue cell of a grid round.  text is the full subtree text
(s.Text(), which concatenates hidden and visible text nodes alike);
clueValueText is the text of the td whose class list contains clue_value;
clueTexts are the td.clue_text descendants in document order; responses
are the response tds of the ancestor row. -/
structure ClueCell where
  text : String
  clueValueText : String
  clueTexts : List ClueTextEl
  responses : List RespTd
deriving DecidableEq, Repr

/-- A grid-round container (id jeopardy_round or double_jeopardy_round):
the td.category_name texts in document order and the td.clue cells in
document order. -/
structure GridTable where
  categoryTexts : List String
  clues : List ClueCell
deriving DecidableEq, Repr

/-- The auxiliary mouseover fragment: the onmouseover attribute parsed as
a secondary document (net/html parsing of a string is total, so the
error branch of goquery.NewDocumentFromReader never fires).  tdTexts are
the texts of its td elements in document order, emText the concatenated
text of its em elements. -/
structure Frag where
  tdTexts : List String
  emText : String
deriving DecidableEq, Repr

/-- One final-round block (a .final_round element inside the
final_jeopardy_round container).  mouseover is the parsed onmouseover
attribute of the first div carrying one (none when no such div exists);
clueFJText / clueTBText are the texts of td#clue_FJ / td#clue_TB;
clueFJResponse is some t when td#clue_FJ_r exists, with t the text of
em.correct_response inside it; categoryNameText is the text of
td.category_name. -/
structure FinalTable where
  mouseover : Option Frag
  clueFJText : String
  clueFJResponse : Option String
  clueTBText : String
  categoryNameText : String
deriving DecidableEq, Repr

/-- A parsed episode page: the title text and the three round containers.
jeopardyRound / doubleJeopardyRound are present iff the corresponding
container id occurs; finalJeopardyRound is present iff the
final_jeopardy_round container occurs, and then carries its .final_round
children in document order (possibly none). -/
structure Page where
  title : String
  jeopardyRound : Option GridTable
  doubleJeopardyRound : Option GridTable
  finalJeopardyRound : Option (List FinalTable)
deriving DecidableEq, Repr

/-- One output row of the CSV, in column order
epNum, airDate, round_name, category, value, daily_double, question,
answer. -/
structure Record where
  epNum : String
  airDate : String
  roundName : String
  category : String
  value : String
  dailyDouble : String
  question : String
  answer : String
deriving DecidableEq, Repr

/-- The only failure of the extraction core once the page is parsed:
parseEpisode returns an error iff no round container was found. -/
inductive ParseError where
  | noRoundsFound
deriving DecidableEq, Repr

/-- Lines 206-212 of parseRound: the value string of a grid clue.  Empty
raw text gives the sentinel; otherwise TrimPrefix(raw, "D: $"), then
ReplaceAll(",", ""), then TrimPrefix "$". -/
def normalizeValue (valueRaw : String) : String :=
  if valueRaw = "" then "-100"
  else strDropLeading (removeCommas (strDropLeading valueRaw "D: $")) "$"

/-- Lines 214-217 of parseRound: the daily-double flag is "true" exactly
when the raw value text has prefix "DD:". -/
def dailyDoubleFlag (valueRaw : String) : String :=
  if strStarts valueRaw "DD:" then "true" else "false"

/-- Lines 219-226 of parseRound: the question is the trimmed text of the
first td.clue_text whose style attribute is absent or does not contain
display:none; empty when every such element is hidden or none exists. -/
def findQuestion : List ClueTextEl → String
  | [] => ""
  | el :: rest =>
    match el.style with
    | none => strTrimSpace el.text
    | some st =>
      if strContainsSub st "display:none" then findQuestion rest
      else strTrimSpace el.text

/-- Lines 228-247 of parseRound: the answer comes from the response td
whose id is the first td.clue_text id with suffix _r appended, taking the
trimmed em.correct_response text; empty when any link of that chain is
missing. -/
def findAnswer (c : ClueCell) : String :=
  match c.clueTexts.head? with
  | none => ""
  | some el =>
    match el.id with
    | none => ""
    | some cid =>
      match c.responses.find? (fun r => r.id == cid ++ "_r") with
      | none => ""
      | some r => strTrimSpace r.correctResponseText

/-- Lines 203-260 of parseRound: the Record built for one non-empty grid
clue cell at column cursor x, given the trimmed category names. -/
def mkClueRecord (categories : List String) (epNum airDate roundName : String)
    (x : Nat) (c : ClueCell) : Record :=
  let valueRaw := strTrimSpace c.clueValueText
  ⟨epNum, airDate, roundName,
    (if x < categories.length then categories.getD x "" else ""),
    normalizeValue valueRaw, dailyDoubleFlag valueRaw,
    findQuestion c.clueTexts, findAnswer c⟩

/-- Lines 193-268 of parseRound: the Each loop over td.clue cells.  A cell
whose whole trimmed text is empty is skipped with the cursor advanced
(x+1) mod 6; otherwise a Record is emitted and the cursor advances by the
equivalent step written if x == 5 then 0 else x+1 in the source. -/
def gridLoop (categories : List String) (epNum airDate roundName : String) :
    Nat → List ClueCell → List Record
  | _, [] => []
  | x, c :: rest =>
    if strTrimSpace c.text = "" then
      gridLoop categories epNum airDate roundName ((x + 1) % 6) rest
    else
      mkClueRecord categories epNum airDate roundName x c ::
        gridLoop categories epNum airDate roundName (if x = 5 then 0 else x + 1) rest

/-- The round < 2 branch of parseRound: collect the trimmed
td.category_name texts, then run the clue loop from cursor 0.  The round
name is "Double Jeopardy" for round 1 and "Jeopardy" otherwise. -/
def parseRoundGrid (round : Nat) (table : GridTable) (epNum airDate : String) :
    List Record :=
  let categories := table.categoryTexts.map strTrimSpace
  let roundName := if round = 1 then "Double Jeopardy" else "Jeopardy"
  gridLoop categories epNum airDate roundName 0 table.clues

/-- The round == 2 branch of parseRound (Final Jeopardy), on the first
.final_round block; none stands for the empty selection produced by
First() on an empty selection, every query of which yields the empty
result. -/
def parseRoundFinal (t? : Option FinalTable) (epNum airDate : String) :
    List Record :=
  let value :=
    match t?.bind FinalTable.mouseover with
    | some frag => String.intercalate "," (frag.tdTexts.map strTrimSpace)
    | none => ""
  let question := strTrimSpace (match t? with | some t => t.clueFJText | none => "")
  let answer :=
    match t?.bind FinalTable.clueFJResponse with
    | some s => strTrimSpace s
    | none => ""
  let category := strTrimSpace (match t? with | some t => t.categoryNameText | none => "")
  [⟨epNum, airDate, "Final Jeopardy", category, value, "false", question, answer⟩]

/-- The round == 3 branch of parseRound (Tiebreaker), on the second
.final_round block; the value is the empty string and the answer is the
trimmed em text of the parsed mouseover fragment. -/
def parseRoundTiebreaker (t? : Option FinalTable) (epNum airDate : String) :
    List Record :=
  let question := strTrimSpace (match t? with | some t => t.clueTBText | none => "")
  let answer :=
    match t?.bind FinalTable.mouseover with
    | some frag => strTrimSpace frag.emText
    | none => ""
  let category := strTrimSpace (match t? with | some t => t.categoryNameText | none => "")
  [⟨epNum, airDate, "Tiebreaker", category, "", "false", question, answer⟩]

/-- Leftmost match of the Go pattern hash-then-digits reEpNum: scan for a
hash immediately followed by at least one digit and capture the maximal
digit run after it (greedy Kleene plus with nothing following). -/
def findHashDigits : List Char → Option (List Char)
  | [] => none
  | c :: rest =>
    if c = '#' then
      if (rest.takeWhile Char.isDigit).isEmpty then findHashDigits rest
      else some (rest.takeWhile Char.isDigit)
    else findHashDigits rest

/-- Lines 136-141 of parseEpisode: the episode number captured from the
title, or the empty string when the pattern does not match. -/
def findEpNum (title : String) : String :=
  match findHashDigits title.data with
  | some ds => ⟨ds⟩
  | none => ""

/-- Whether a character list begins with a ten-character window of shape
dddd-dd-dd, the fixed-length date pattern of reAirDate. -/
def dateAtHead : List Char → Bool
  | a :: b :: c :: d :: '-' :: e :: f :: '-' :: g :: h :: _ =>
    a.isDigit && b.isDigit && c.isDigit && d.isDigit &&
      e.isDigit && f.isDigit && g.isDigit && h.isDigit
  | _ => false

/-- Leftmost match of the fixed-length date pattern: the first position
whose ten-character window matches, as FindString returns it. -/
def findDateFrom : List Char → Option (List Char)
  | [] => none
  | c :: rest =>
    if dateAtHead (c :: rest) then some ((c :: rest).take 10)
    else findDateFrom rest

/-- Lines 144-145 of parseEpisode: the air date found in the title, or the
empty string when the pattern does not match (FindString yields ""). -/
def findAirDate (title : String) : String :=
  match findDateFrom title.data with
  | some ds => ⟨ds⟩
  | none => ""

/-- Lines 147-175 of parseEpisode: the rounds slice, built by appending,
in this fixed order, the Jeopardy round (container jeopardy_round), the
Double Jeopardy round (container double_jeopardy_round), the Final
Jeopardy round (the first .final_round block of final_jeopardy_round)
and the Tiebreaker round (the second block, appended only when the
container has more than one block). -/
def episodeRounds (p : Page) : List (List Record) :=
  let epNum := findEpNum p.title
  let airDate := findAirDate p.title
  (match p.jeopardyRound with
    | some t => [parseRoundGrid 0 t epNum airDate]
    | none => []) ++
  (match p.doubleJeopardyRound with
    | some t => [parseRoundGrid 1 t epNum airDate]
    | none => []) ++
  (match p.finalJeopardyRound with
    | some blocks => [parseRoundFinal blocks.head? epNum airDate]
    | none => []) ++
  (match p.finalJeopardyRound with
    | some blocks =>
      if blocks.length > 1 then [parseRoundTiebreaker (blocks.get? 1) epNum airDate]
      else []
    | none => [])

/-- Lines 123-181 of parseEpisode: build the rounds slice and fail with
noRoundsFound when it is empty (line 177), otherwise return it. -/
def parseEpisode (p : Page) : Except ParseError (List (List Record)) :=
  if (episodeRounds p).isEmpty then Except.error ParseError.noRoundsFound
  else Except.ok (episodeRounds p)

/-- Line 147: presence of the jeopardy_round container. -/
def hasRoundJ (p : Page) : Bool :=
  p.jeopardyRound.isSome

/-- Line 148: presence of the double_jeopardy_round container. -/
def hasRoundDJ (p : Page) : Bool :=
  p.doubleJeopardyRound.isSome

/-- Line 149: presence of the final_jeopardy_round container. -/
def hasRoundFJ (p : Page) : Bool :=
  p.finalJeopardyRound.isSome

/-- Line 150: more than one .final_round block inside the
final_jeopardy_round container. -/
def hasRoundTB (p : Page) : Bool :=
  match p.finalJeopardyRound with
  | some blocks => blocks.length > 1
  | none => false

/-- The Jeopardy-round segment of the flattened record sequence. -/
def flatJ (p : Page) : List Record :=
  match p.jeopardyRound with
  | some t => parseRoundGrid 0 t (findEpNum p.title) (findAirDate p.title)
  | none => []

/-- The Double-Jeopardy-round segment of the flattened record sequence. -/
def flatDJ (p : Page) : List Record :=
  match p.doubleJeopardyRound with
  | some t => parseRoundGrid 1 t (findEpNum p.title) (findAirDate p.title)
  | none => []

/-- The Final-Jeopardy-round segment of the flattened record sequence. -/
def flatFJ (p : Page) : List Record :=
  match p.finalJeopardyRound with
  | some blocks => parseRoundFinal blocks.head? (findEpNum p.title) (findAirDate p.title)
  | none => []

/-- The Tiebreaker-round segment of the flattened record sequence. -/
def flatTB (p : Page) : List Record :=
  match p.finalJeopardyRound with
  | some blocks =>
    if blocks.length > 1 then
      parseRoundTiebreaker (blocks.get? 1) (findEpNum p.title) (findAirDate p.title)
    else []
  | none => []

/-- Per-cell emission step of the clue loop, indexed by the ordinal
position of the cell among all cells of the round (empty or not) plus a
base cursor offset: an empty-text cell emits nothing, a non-empty cell
emits its Record with column index (base + position) mod 6. -/
def gridEmit (categories : List String) (epNum airDate roundName : String)
    (b : Nat) (ic : Nat × ClueCell) : Option Record :=
  if strTrimSpace ic.2.text = "" then none
  else some (mkClueRecord categories epNum airDate roundName ((b + ic.1) % 6) ic.2)

/-- A concrete non-empty clue cell: visible clue text, a plain value and
a response row. -/
def w1CellA : ClueCell :=
  ⟨" $400 A visible clue ", " $400 ",
    [⟨none, " A visible clue ", some "clue_J_1_1"⟩],
    [⟨"clue_J_1_1_r", " What is A? "⟩]⟩

/-- A concrete structural placeholder cell: whitespace-only text. -/
def w1CellB : ClueCell :=
  ⟨"   ", "", [], []⟩

/-- A concrete daily-double clue cell. -/
def w1CellC : ClueCell :=
  ⟨"DD: $1,000 Another clue", "DD: $1,000",
    [⟨some "display:none;", "backup", some "clue_J_2_1"⟩,
     ⟨none, "Another clue", some "clue_J_2_1"⟩],
    [⟨"clue_J_2_1_r", "What is C?"⟩]⟩

/-- A concrete two-category grid round holding the three cells above. -/
def w1Grid : GridTable :=
  ⟨["CAT ONE ", " CAT TWO"], [w1CellA, w1CellB, w1CellC]⟩

/-- A concrete clue cell whose only text node is hidden: the visible
question text is empty but the whole-cell text is not. -/
def w3Cell : ClueCell :=
  ⟨"THE HIDDEN ALTERNATE", "",
    [⟨some "display:none;", "THE HIDDEN ALTERNATE", some "clue_J_3_1"⟩], []⟩

/-- A concrete one-cell grid round around w3Cell. -/
def w3Grid : GridTable :=
  ⟨["SOME CATEGORY"], [w3Cell]⟩

/-- A concrete page holding no round container at all. -/
def w5None : Page :=
  ⟨"Some page with no rounds", none, none, none⟩

/-- A concrete page holding only a (single-cell) Jeopardy round. -/
def w5J : Page :=
  ⟨"Show #1, aired 2020-01-01", some ⟨["ONLY CAT"], [w1CellA]⟩, none, none⟩

/-- A concrete Final Jeopardy block with one wager cell in its mouseover
fragment. -/
def w6a : FinalTable :=
  ⟨some ⟨["$10,000"], " Who is A? "⟩, " The final clue ", some " Who is A? ", "",
    " FINAL CAT "⟩

/-- A concrete Tiebreaker block. -/
def w6b : FinalTable :=
  ⟨some ⟨[], " Who is B? "⟩, "", none, " The tiebreaker clue ", " TB CAT "⟩

/-- The two final-round blocks of the concrete page below. -/
def w6blocks : List FinalTable := [w6a, w6b]

/-- A concrete page whose final-round container holds two blocks. -/
def w6Page : Page :=
  ⟨"Show #100, aired 2001-02-03", none, none, some w6blocks⟩

/-- Canonical position of a round name in the order Jeopardy, Double
Jeopardy, Final Jeopardy, Tiebreaker. -/
def roundRank (n : String) : Nat :=
  if n = "Jeopardy" then 0
  else if n = "Double Jeopardy" then 1
  else if n = "Final Jeopardy" then 2
  else 3

/-- The episode-number pattern as the claim words it: a hash followed by
one to four digits, captured greedily.  Stated from the spec wording for
comparison with findEpNum; the source pattern has an unbounded digit
run. -/
def findHashDigitsUpTo4 : List Char → Option (List Char)
  | [] => none
  | c :: rest =>
    if c = '#' then
      if (rest.takeWhile Char.isDigit).isEmpty then findHashDigitsUpTo4 rest
      else some ((rest.takeWhile Char.isDigit).take 4)
    else findHashDigitsUpTo4 rest

/-- The episode number the claim pattern would capture from the title. -/
def findEpNumSpec (title : String) : String :=
  match findHashDigitsUpTo4 title.data with
  | some ds => ⟨ds⟩
  | none => ""

/-- The value shape the claim asserts for every Record: a non-empty
string of digits, or the sentinel. -/
def valueNormalForm (v : String) : Bool :=
  (decide (v ≠ "") && v.data.all Char.isDigit) || v == "-100"

/-- A concrete mouseover fragment with two wager cells, as a Final
Jeopardy block carries after both wagers are revealed. -/
def w4Frag : Frag :=
  ⟨["$10,000", "$5,000"], " Who is C? "⟩

/-- A concrete Final Jeopardy block around w4Frag. -/
def w4Final : FinalTable :=
  ⟨some w4Frag, " The category clue ", some " Who is C? ", "", " THE CAT "⟩

example : normalizeValue "$400" = "400" := by decide
example : normalizeValue "" = "-100" := by decide
example : normalizeValue "DD: $1,200" = "DD: $1200" := by decide
example : normalizeValue "$1,000" = "1000" := by decide
example : dailyDoubleFlag "DD: $1,200" = "true" := by decide
example : findEpNum "Show #4596, aired 2004-07-23" = "4596" := by decide
example : findAirDate "Show #4596, aired 2004-07-23" = "2004-07-23" := by decide
example : findEpNum "no number here" = "" := by decide

lemma cursorStep {x : Nat} (hx : x < 6) : (if x = 5 then 0 else x + 1) = (x + 1) % 6 := by
  interval_cases x <;> simp

lemma enumFrom_one {α : Type} (cs : List α) :
    List.enumFrom 1 cs = cs.enum.map (Prod.map (fun i => 1 + i) id) := by
  rw [List.enumFrom_eq_zip_range', List.range'_eq_map_range, List.zip_map_left,
    List.enum_eq_zip_range]

lemma gridEmit_shift (categories : List String) (e a rn : String) {x : Nat} :
    gridEmit categories e a rn x ∘ Prod.map (fun i => 1 + i) id =
      gridEmit categories e a rn ((x + 1) % 6) := by
  funext ic
  rcases ic with ⟨i, c⟩
  have hidx : (x + (1 + i)) % 6 = ((x + 1) % 6 + i) % 6 := by
    rw [Nat.mod_add_mod]
    congr 1
    omega
  simp only [Function.comp, Prod.map, id, gridEmit, hidx]

lemma gridLoop_eq_filterMap (categories : List String) (e a rn : String) :
    ∀ (cs : List ClueCell) (x : Nat), x < 6 →
      gridLoop categories e a rn x cs =
        cs.enum.filterMap (gridEmit categories e a rn x) := by
  intro cs
  induction cs with
  | nil => intro x _; rfl
  | cons c cs ih =>
    intro x hx
    have hx1 : (x + 1) % 6 < 6 := Nat.mod_lt _ (by norm_num)
    rw [List.enum_cons, List.filterMap_cons, enumFrom_one, List.filterMap_map,
      gridEmit_shift, ← ih _ hx1]
    by_cases hskip : strTrimSpace c.text = ""
    · have hnone : gridEmit categories e a rn x (0, c) = none := by
        simp [gridEmit, hskip]
      rw [hnone]
      simp only [gridLoop, hskip, if_pos]
    · have hsome : gridEmit categories e a rn x (0, c) =
          some (mkClueRecord categories e a rn x c) := by
        simp only [gridEmit, hskip, if_neg, not_false_iff]
        rw [Nat.add_zero, Nat.mod_eq_of_lt hx]
      rw [hsome]
      simp only [gridLoop, hskip, if_neg, not_false_iff, cursorStep hx]

lemma gridLoop_length (categories : List String) (e a rn : String) :
    ∀ (cs : List ClueCell) (x : Nat),
      (gridLoop categories e a rn x cs).length =
        (cs.filter (fun c => decide (strTrimSpace c.text ≠ ""))).length := by
  intro cs
  induction cs with
  | nil => intro x; rfl
  | cons c cs ih =>
    intro x
    by_cases hskip : strTrimSpace c.text = "" <;>
      simp [gridLoop, List.filter_cons, hskip, ih]

lemma parseRoundGrid_closed_form (round : Nat) (t : GridTable) (e a : String) :
    parseRoundGrid round t e a =
      t.clues.enum.filterMap (fun ic =>
        if strTrimSpace ic.2.text = "" then none
        else some (mkClueRecord (t.categoryTexts.map strTrimSpace) e a
          (if round = 1 then "Double Jeopardy" else "Jeopardy") (ic.1 % 6) ic.2)) := by
  have hzero : (0 : Nat) < 6 := by norm_num
  have hform : parseRoundGrid round t e a =
      t.clues.enum.filterMap
        (gridEmit (t.categoryTexts.map strTrimSpace) e a
          (if round = 1 then "Double Jeopardy" else "Jeopardy") 0) := by
    unfold parseRoundGrid
    exact gridLoop_eq_filterMap _ _ _ _ _ 0 hzero
  rw [hform]
  refine List.filterMap_congr (fun ic _ => ?_)
  simp only [gridEmit, Nat.zero_add]

/-- C1: a grid round with at most six category headers emits one Record
per clue cell with non-empty trimmed text; the emitted sequence is the
in-order emission over the enumerated cells, where the cell at ordinal
position i (counting empty cells too) takes the trimmed category at index
i mod 6, or the empty string when that index reaches past the category
list; the cursor advance is mod 6 for every cell, emitted or skipped. -/
theorem parseRoundGrid_count_and_category (round : Nat) (t : GridTable)
    (e a : String) (h : t.categoryTexts.length ≤ 6) :
    (parseRoundGrid round t e a).length =
      (t.clues.filter (fun c => decide (strTrimSpace c.text ≠ ""))).length ∧
    parseRoundGrid round t e a =
      t.clues.enum.filterMap (fun ic =>
        if strTrimSpace ic.2.text = "" then none
        else some (mkClueRecord (t.categoryTexts.map strTrimSpace) e a
          (if round = 1 then "Double Jeopardy" else "Jeopardy") (ic.1 % 6) ic.2)) ∧
    ∀ rec ∈ parseRoundGrid round t e a, ∃ i c, (i, c) ∈ t.clues.enum ∧
      strTrimSpace c.text ≠ "" ∧
      rec.category =
        (if i % 6 < (t.categoryTexts.map strTrimSpace).length
         then (t.categoryTexts.map strTrimSpace).getD (i % 6) "" else "") := by
  refine ⟨?_, parseRoundGrid_closed_form round t e a, ?_⟩
  · unfold parseRoundGrid
    exact gridLoop_length _ _ _ _ _ 0
  · intro rec hrec
    rw [parseRoundGrid_closed_form] at hrec
    rcases List.mem_filterMap.mp hrec with ⟨ic, hicmem, hiceq⟩
    rcases ic with ⟨i, c⟩
    refine ⟨i, c, hicmem, ?_, ?_⟩
    · intro hempty
      simp [hempty] at hiceq
    · by_cases hempty : strTrimSpace c.text = ""
      · simp [hempty] at hiceq
      · simp only [hempty, if_neg, not_false_iff, Option.some.injEq] at hiceq
        rw [← hiceq]
        simp [mkClueRecord]

theorem parseRoundGrid_count_and_category_witness :
    w1Grid.categoryTexts.length ≤ 6 ∧
    ((parseRoundGrid 0 w1Grid "42" "2020-01-01").length =
        (w1Grid.clues.filter (fun c => decide (strTrimSpace c.text ≠ ""))).length ∧
      parseRoundGrid 0 w1Grid "42" "2020-01-01" =
        w1Grid.clues.enum.filterMap (fun ic =>
          if strTrimSpace ic.2.text = "" then none
          else some (mkClueRecord (w1Grid.categoryTexts.map strTrimSpace) "42" "2020-01-01"
            (if 0 = 1 then "Double Jeopardy" else "Jeopardy") (ic.1 % 6) ic.2)) ∧
      ∀ rec ∈ parseRoundGrid 0 w1Grid "42" "2020-01-01", ∃ i c,
        (i, c) ∈ w1Grid.clues.enum ∧
        strTrimSpace c.text ≠ "" ∧
        rec.category =
          (if i % 6 < (w1Grid.categoryTexts.map strTrimSpace).length
           then (w1Grid.categoryTexts.map strTrimSpace).getD (i % 6) "" else "")) :=
  ⟨by decide, parseRoundGrid_count_and_category 0 w1Grid "42" "2020-01-01" (by decide)⟩

/-- C2: evaluation of the grid value normalization at the inputs of the
claim.  The source strips the literal prefix D-colon-space-dollar, which
a raw value starting with DD never carries, so the daily-double example
keeps its marker (only the comma is removed) instead of normalizing to
the bare digits the claim states; the empty and plain-dollar cases match
the claim, as does the daily-double flag. -/
theorem normalizeValue_dd_eval :
    normalizeValue "DD: $1,200" = "DD: $1200" ∧
    ¬ normalizeValue "DD: $1,200" = "1200" ∧
    dailyDoubleFlag "DD: $1,200" = "true" ∧
    normalizeValue "" = "-100" ∧
    dailyDoubleFlag "" = "false" ∧
    normalizeValue "$400" = "400" ∧
    dailyDoubleFlag "$400" = "false" := by
  decide

/-- C3 counterexample: a grid clue cell whose visible question text is
empty but which holds hidden alternate text is not skipped — the skip
test of the source reads the whole cell text, hidden nodes included, so
a Record is emitted for it (with empty question). -/
theorem hiddenCell_emits_record :
    findQuestion w3Cell.clueTexts = "" ∧
    strTrimSpace w3Cell.text ≠ "" ∧
    (parseRoundGrid 0 w3Grid "" "").length = 1 ∧
    (parseRoundGrid 0 w3Grid "" "").map Record.question = [""] := by
  decide

/-- C3 amended: the loop skips a cell exactly when the trimmed text of
the whole cell (hidden nodes included) is empty, advancing the cursor by
one mod 6 and emitting nothing; a cell whose whole text is non-empty
yields a Record even when its visible question text is empty (the
question field is then empty), the cursor again advancing by one. -/
theorem gridLoop_placeholder_behavior (categories : List String)
    (e a rn : String) (x : Nat) (c : ClueCell) (rest : List ClueCell) :
    (strTrimSpace c.text = "" →
      gridLoop categories e a rn x (c :: rest) =
        gridLoop categories e a rn ((x + 1) % 6) rest) ∧
    (x < 6 → strTrimSpace c.text ≠ "" →
      gridLoop categories e a rn x (c :: rest) =
        mkClueRecord categories e a rn x c ::
          gridLoop categories e a rn ((x + 1) % 6) rest) ∧
    (findQuestion c.clueTexts = "" →
      (mkClueRecord categories e a rn x c).question = "") := by
  refine ⟨?_, ?_, ?_⟩
  · intro hskip
    simp [gridLoop, hskip]
  · intro hx hne
    simp [gridLoop, hne, cursorStep hx]
  · intro hq
    simp [mkClueRecord, hq]

theorem gridLoop_placeholder_behavior_witness :
    (gridLoop ["C"] "1" "2" "Jeopardy" 0 (w1CellB :: []) =
      gridLoop ["C"] "1" "2" "Jeopardy" ((0 + 1) % 6) []) ∧
    (gridLoop ["C"] "1" "2" "Jeopardy" 0 (w3Cell :: []) =
      mkClueRecord ["C"] "1" "2" "Jeopardy" 0 w3Cell ::
        gridLoop ["C"] "1" "2" "Jeopardy" ((0 + 1) % 6) []) ∧
    (mkClueRecord ["C"] "1" "2" "Jeopardy" 0 w3Cell).question = "" :=
  ⟨(gridLoop_placeholder_behavior ["C"] "1" "2" "Jeopardy" 0 w1CellB []).1 (by decide),
   (gridLoop_placeholder_behavior ["C"] "1" "2" "Jeopardy" 0 w3Cell []).2.1 (by decide)
     (by decide),
   (gridLoop_placeholder_behavior ["C"] "1" "2" "Jeopardy" 0 w3Cell []).2.2 (by decide)⟩

lemma episodeRounds_flatten (p : Page) :
    (episodeRounds p).flatten = flatJ p ++ flatDJ p ++ flatFJ p ++ flatTB p := by
  rcases p with ⟨title, j, dj, fj⟩
  cases fj with
  | none =>
    cases j <;> cases dj <;>
      simp [episodeRounds, flatJ, flatDJ, flatFJ, flatTB, List.append_assoc]
  | some blocks =>
    by_cases htb : blocks.length > 1 <;>
      cases j <;> cases dj <;>
        simp [episodeRounds, flatJ, flatDJ, flatFJ, flatTB, htb, List.append_assoc]

lemma episodeRounds_eq_nil_iff (p : Page) :
    episodeRounds p = [] ↔
      hasRoundJ p = false ∧ hasRoundDJ p = false ∧ hasRoundFJ p = false ∧
        hasRoundTB p = false := by
  rcases p with ⟨title, j, dj, fj⟩
  cases fj with
  | none =>
    cases j <;> cases dj <;>
      simp [episodeRounds, hasRoundJ, hasRoundDJ, hasRoundFJ, hasRoundTB]
  | some blocks =>
    by_cases htb : blocks.length > 1 <;>
      cases j <;> cases dj <;>
        simp [episodeRounds, hasRoundJ, hasRoundDJ, hasRoundFJ, hasRoundTB, htb]

lemma episodeRounds_length (p : Page) :
    (episodeRounds p).length =
      (if hasRoundJ p = true then 1 else 0) + (if hasRoundDJ p = true then 1 else 0) +
        (if hasRoundFJ p = true then 1 else 0) + (if hasRoundTB p = true then 1 else 0) := by
  rcases p with ⟨title, j, dj, fj⟩
  cases fj with
  | none =>
    cases j <;> cases dj <;>
      simp [episodeRounds, hasRoundJ, hasRoundDJ, hasRoundFJ, hasRoundTB]
  | some blocks =>
    by_cases htb : blocks.length > 1 <;>
      cases j <;> cases dj <;>
        simp [episodeRounds, hasRoundJ, hasRoundDJ, hasRoundFJ, hasRoundTB, htb]

lemma parseEpisode_ok_iff (p : Page) (rs : List (List Record)) :
    parseEpisode p = Except.ok rs ↔ episodeRounds p ≠ [] ∧ rs = episodeRounds p := by
  by_cases hnil : episodeRounds p = []
  · simp [parseEpisode, hnil]
  · have hE : (episodeRounds p).isEmpty = false := by
      simp [hnil]
    simp [parseEpisode, hE, hnil, eq_comm]

lemma parseEpisode_error_iff (p : Page) :
    parseEpisode p = Except.error ParseError.noRoundsFound ↔ episodeRounds p = [] := by
  by_cases hnil : episodeRounds p = []
  · simp [parseEpisode, hnil]
  · have hE : (episodeRounds p).isEmpty = false := by
      simp [hnil]
    simp [parseEpisode, hE, hnil]

lemma mem_parseRoundGrid {round : Nat} {t : GridTable} {e a : String} {rec : Record}
    (h : rec ∈ parseRoundGrid round t e a) :
    rec.epNum = e ∧ rec.airDate = a ∧
      rec.roundName = (if round = 1 then "Double Jeopardy" else "Jeopardy") := by
  rw [parseRoundGrid_closed_form] at h
  rcases List.mem_filterMap.mp h with ⟨ic, _, hic⟩
  by_cases hempty : strTrimSpace ic.2.text = ""
  · simp [hempty] at hic
  · simp only [hempty, if_neg, not_false_iff, Option.some.injEq] at hic
    rw [← hic]
    simp [mkClueRecord]

lemma mem_parseRoundFinal {t? : Option FinalTable} {e a : String} {rec : Record}
    (h : rec ∈ parseRoundFinal t? e a) :
    rec.epNum = e ∧ rec.airDate = a ∧ rec.roundName = "Final Jeopardy" ∧
      rec.dailyDouble = "false" := by
  simp only [parseRoundFinal, List.mem_singleton] at h
  subst h
  exact ⟨rfl, rfl, rfl, rfl⟩

lemma mem_parseRoundTiebreaker {t? : Option FinalTable} {e a : String} {rec : Record}
    (h : rec ∈ parseRoundTiebreaker t? e a) :
    rec.epNum = e ∧ rec.airDate = a ∧ rec.roundName = "Tiebreaker" ∧
      rec.dailyDouble = "false" ∧ rec.value = "" := by
  simp only [parseRoundTiebreaker, List.mem_singleton] at h
  subst h
  exact ⟨rfl, rfl, rfl, rfl, rfl⟩

lemma mem_flatJ {p : Page} {rec : Record} (h : rec ∈ flatJ p) :
    rec.epNum = findEpNum p.title ∧ rec.airDate = findAirDate p.title ∧
      rec.roundName = "Jeopardy" := by
  rcases p with ⟨title, j, dj, fj⟩
  cases j with
  | none => simp [flatJ] at h
  | some t =>
    simp only [flatJ] at h
    have := mem_parseRoundGrid h
    simpa using this

lemma mem_flatDJ {p : Page} {rec : Record} (h : rec ∈ flatDJ p) :
    rec.epNum = findEpNum p.title ∧ rec.airDate = findAirDate p.title ∧
      rec.roundName = "Double Jeopardy" := by
  rcases p with ⟨title, j, dj, fj⟩
  cases dj with
  | none => simp [flatDJ] at h
  | some t =>
    simp only [flatDJ] at h
    have := mem_parseRoundGrid h
    simpa using this

lemma mem_flatFJ {p : Page} {rec : Record} (h : rec ∈ flatFJ p) :
    rec.epNum = findEpNum p.title ∧ rec.airDate = findAirDate p.title ∧
      rec.roundName = "Final Jeopardy" ∧ rec.dailyDouble = "false" := by
  rcases p with ⟨title, j, dj, fj⟩
  cases fj with
  | none => simp [flatFJ] at h
  | some blocks =>
    simp only [flatFJ] at h
    exact mem_parseRoundFinal h

lemma mem_flatTB {p : Page} {rec : Record} (h : rec ∈ flatTB p) :
    rec.epNum = findEpNum p.title ∧ rec.airDate = findAirDate p.title ∧
      rec.roundName = "Tiebreaker" ∧ rec.dailyDouble = "false" ∧ rec.value = "" := by
  rcases p with ⟨title, j, dj, fj⟩
  cases fj with
  | none => simp [flatTB] at h
  | some blocks =>
    simp only [flatTB] at h
    by_cases htb : blocks.length > 1
    · rw [if_pos htb] at h
      exact mem_parseRoundTiebreaker h
    · rw [if_neg htb] at h
      simp at h

/-- C5: episode extraction fails, with noRoundsFound, exactly when none
of the four round detections fires; it succeeds exactly when at least
one fires, and then returns one block of rows per present round. -/
theorem parseEpisode_noRoundsFound_iff (p : Page) :
    (parseEpisode p = Except.error ParseError.noRoundsFound ↔
      hasRoundJ p = false ∧ hasRoundDJ p = false ∧ hasRoundFJ p = false ∧
        hasRoundTB p = false) ∧
    ((∃ rs, parseEpisode p = Except.ok rs) ↔
      (hasRoundJ p = true ∨ hasRoundDJ p = true ∨ hasRoundFJ p = true ∨
        hasRoundTB p = true)) ∧
    (∀ rs, parseEpisode p = Except.ok rs →
      rs.length = (if hasRoundJ p = true then 1 else 0) +
        (if hasRoundDJ p = true then 1 else 0) +
        (if hasRoundFJ p = true then 1 else 0) +
        (if hasRoundTB p = true then 1 else 0)) := by
  refine ⟨?_, ?_, ?_⟩
  · rw [parseEpisode_error_iff, episodeRounds_eq_nil_iff]
  · constructor
    · rintro ⟨rs, hrs⟩
      rcases (parseEpisode_ok_iff p rs).mp hrs with ⟨hne, _⟩
      by_contra hnone
      push_neg at hnone
      simp only [Bool.not_eq_true] at hnone
      exact hne (by rw [episodeRounds_eq_nil_iff]; exact hnone)
    · intro hpres
      have hne : episodeRounds p ≠ [] := by
        rw [Ne, episodeRounds_eq_nil_iff]
        rintro ⟨h1, h2, h3, h4⟩
        rcases hpres with h | h | h | h <;> simp_all
      exact ⟨episodeRounds p, (parseEpisode_ok_iff p _).mpr ⟨hne, rfl⟩⟩
  · intro rs hrs
    rcases (parseEpisode_ok_iff p rs).mp hrs with ⟨_, hrseq⟩
    rw [hrseq, episodeRounds_length]

theorem parseEpisode_noRoundsFound_iff_witness :
    parseEpisode w5None = Except.error ParseError.noRoundsFound ∧
    (episodeRounds w5J).length =
      (if hasRoundJ w5J = true then 1 else 0) + (if hasRoundDJ w5J = true then 1 else 0) +
        (if hasRoundFJ w5J = true then 1 else 0) + (if hasRoundTB w5J = true then 1 else 0) :=
  ⟨(parseEpisode_noRoundsFound_iff w5None).1.mpr (by decide),
   (parseEpisode_noRoundsFound_iff w5J).2.2 (episodeRounds w5J)
     ((parseEpisode_ok_iff _ _).mpr ⟨by decide, rfl⟩)⟩

/-- C6: when the final-round container holds two blocks, the round list
ends with the Final Jeopardy rows built from the first block followed by
the Tiebreaker rows built from the second; each of these rounds is a
single Record with dailyDouble "false", and the Tiebreaker value is the
empty string. -/
theorem parseEpisode_final_then_tiebreaker (p : Page) (blocks : List FinalTable)
    (hfj : p.finalJeopardyRound = some blocks) (hlen : blocks.length = 2) :
    (∃ pre, parseEpisode p = Except.ok (pre ++
      [parseRoundFinal blocks.head? (findEpNum p.title) (findAirDate p.title),
       parseRoundTiebreaker (blocks.get? 1) (findEpNum p.title) (findAirDate p.title)])) ∧
    (parseRoundFinal blocks.head? (findEpNum p.title) (findAirDate p.title)).length = 1 ∧
    (parseRoundTiebreaker (blocks.get? 1) (findEpNum p.title) (findAirDate p.title)).length
      = 1 ∧
    (∀ rec ∈ parseRoundFinal blocks.head? (findEpNum p.title) (findAirDate p.title),
      rec.roundName = "Final Jeopardy" ∧ rec.dailyDouble = "false") ∧
    (∀ rec ∈ parseRoundTiebreaker (blocks.get? 1) (findEpNum p.title) (findAirDate p.title),
      rec.roundName = "Tiebreaker" ∧ rec.dailyDouble = "false" ∧ rec.value = "") := by
  have htb : blocks.length > 1 := by omega
  refine ⟨?_, rfl, rfl, ?_, ?_⟩
  · rcases p with ⟨title, j, dj, fj⟩
    obtain rfl : fj = some blocks := hfj
    cases j with
    | none =>
      cases dj with
      | none =>
        refine ⟨[], (parseEpisode_ok_iff _ _).mpr ⟨?_, ?_⟩⟩ <;>
          simp [episodeRounds, htb]
      | some tdj =>
        refine ⟨[parseRoundGrid 1 tdj (findEpNum title) (findAirDate title)],
          (parseEpisode_ok_iff _ _).mpr ⟨?_, ?_⟩⟩ <;>
          simp [episodeRounds, htb]
    | some tj =>
      cases dj with
      | none =>
        refine ⟨[parseRoundGrid 0 tj (findEpNum title) (findAirDate title)],
          (parseEpisode_ok_iff _ _).mpr ⟨?_, ?_⟩⟩ <;>
          simp [episodeRounds, htb]
      | some tdj =>
        refine ⟨[parseRoundGrid 0 tj (findEpNum title) (findAirDate title),
          parseRoundGrid 1 tdj (findEpNum title) (findAirDate title)],
          (parseEpisode_ok_iff _ _).mpr ⟨?_, ?_⟩⟩ <;>
          simp [episodeRounds, htb]
  · intro rec hrec
    have hm := mem_parseRoundFinal hrec
    exact ⟨hm.2.2.1, hm.2.2.2⟩
  · intro rec hrec
    have hm := mem_parseRoundTiebreaker hrec
    exact ⟨hm.2.2.1, hm.2.2.2.1, hm.2.2.2.2⟩

theorem parseEpisode_final_then_tiebreaker_witness :
    (∃ pre, parseEpisode w6Page = Except.ok (pre ++
      [parseRoundFinal w6blocks.head? (findEpNum w6Page.title) (findAirDate w6Page.title),
       parseRoundTiebreaker (w6blocks.get? 1) (findEpNum w6Page.title)
         (findAirDate w6Page.title)])) ∧
    (parseRoundFinal w6blocks.head? (findEpNum w6Page.title)
      (findAirDate w6Page.title)).length = 1 ∧
    (parseRoundTiebreaker (w6blocks.get? 1) (findEpNum w6Page.title)
      (findAirDate w6Page.title)).length = 1 ∧
    (∀ rec ∈ parseRoundFinal w6blocks.head? (findEpNum w6Page.title)
        (findAirDate w6Page.title),
      rec.roundName = "Final Jeopardy" ∧ rec.dailyDouble = "false") ∧
    (∀ rec ∈ parseRoundTiebreaker (w6blocks.get? 1) (findEpNum w6Page.title)
        (findAirDate w6Page.title),
      rec.roundName = "Tiebreaker" ∧ rec.dailyDouble = "false" ∧ rec.value = "") :=
  parseEpisode_final_then_tiebreaker w6Page w6blocks rfl (by decide)

lemma pairwise_rank_segments (b0 b1 b2 b3 : List Record)
    (h0 : ∀ r ∈ b0, roundRank r.roundName = 0)
    (h1 : ∀ r ∈ b1, roundRank r.roundName = 1)
    (h2 : ∀ r ∈ b2, roundRank r.roundName = 2)
    (h3 : ∀ r ∈ b3, roundRank r.roundName = 3) :
    (b0 ++ b1 ++ b2 ++ b3).Pairwise
      (fun r s => roundRank r.roundName ≤ roundRank s.roundName) := by
  have pw : ∀ (b : List Record) (k : Nat), (∀ r ∈ b, roundRank r.roundName = k) →
      b.Pairwise (fun r s => roundRank r.roundName ≤ roundRank s.roundName) := by
    intro b k hk
    exact List.pairwise_of_forall_mem_list (fun r hr s hs => by rw [hk r hr, hk s hs])
  rw [List.pairwise_append]
  refine ⟨?_, pw b3 3 h3, ?_⟩
  · rw [List.pairwise_append]
    refine ⟨?_, pw b2 2 h2, ?_⟩
    · rw [List.pairwise_append]
      refine ⟨pw b0 0 h0, pw b1 1 h1, ?_⟩
      intro r hr s hs
      rw [h0 r hr, h1 s hs]
      omega
    · intro r hr s hs
      rw [h2 s hs]
      rcases List.mem_append.mp hr with h | h
      · rw [h0 r h]; omega
      · rw [h1 r h]; omega
  · intro r hr s hs
    rw [h3 s hs]
    rcases List.mem_append.mp hr with h | h
    · rcases List.mem_append.mp h with h' | h'
      · rw [h0 r h']; omega
      · rw [h1 r h']; omega
    · rw [h2 r h]; omega

lemma filterMap_ite_sublist {α β : Type} (P : α → Prop) [DecidablePred P] (g : α → β) :
    ∀ l : List α,
      List.Sublist (l.filterMap fun x => if P x then none else some (g x)) (l.map g) := by
  intro l
  induction l with
  | nil => simp
  | cons x l ih =>
    by_cases hx : P x
    · simp only [List.filterMap_cons, hx, if_pos, List.map_cons]
      exact ih.cons _
    · simp only [List.filterMap_cons, hx, if_neg, not_false_iff, List.map_cons]
      exact ih.cons₂ _

/-- C7: the flattened record sequence of a successfully extracted page is
ordered by the canonical round order Jeopardy, Double Jeopardy, Final
Jeopardy, Tiebreaker; inside a grid round the emitted Records form an
order-preserving subsequence of the per-cell records taken in document
order of the clue cells. -/
theorem parseEpisode_canonical_order (p : Page) (rs : List (List Record))
    (h : parseEpisode p = Except.ok rs) :
    rs.flatten.Pairwise (fun r s => roundRank r.roundName ≤ roundRank s.roundName) ∧
    ∀ round t e a, List.Sublist (parseRoundGrid round t e a)
      (t.clues.enum.map (fun ic =>
        mkClueRecord (t.categoryTexts.map strTrimSpace) e a
          (if round = 1 then "Double Jeopardy" else "Jeopardy") (ic.1 % 6) ic.2)) := by
  constructor
  · rcases (parseEpisode_ok_iff p rs).mp h with ⟨_, rfl⟩
    rw [episodeRounds_flatten]
    refine pairwise_rank_segments _ _ _ _ ?_ ?_ ?_ ?_
    · intro r hr
      rw [(mem_flatJ hr).2.2]
      decide
    · intro r hr
      rw [(mem_flatDJ hr).2.2]
      decide
    · intro r hr
      rw [(mem_flatFJ hr).2.2.1]
      decide
    · intro r hr
      rw [(mem_flatTB hr).2.2.1]
      decide
  · intro round t e a
    rw [parseRoundGrid_closed_form]
    exact filterMap_ite_sublist (fun ic => strTrimSpace ic.2.text = "")
      (fun ic => mkClueRecord (t.categoryTexts.map strTrimSpace) e a
        (if round = 1 then "Double Jeopardy" else "Jeopardy") (ic.1 % 6) ic.2)
      t.clues.enum

theorem parseEpisode_canonical_order_witness :
    (episodeRounds w6Page).flatten.Pairwise
      (fun r s => roundRank r.roundName ≤ roundRank s.roundName) :=
  (parseEpisode_canonical_order w6Page (episodeRounds w6Page)
    ((parseEpisode_ok_iff _ _).mpr ⟨by decide, rfl⟩)).1

/-- C9: extraction is a pure function of the page content: two pages that
agree on the title and the three round containers extract identically. -/
theorem parseEpisode_content_determined (p q : Page)
    (ht : p.title = q.title) (hj : p.jeopardyRound = q.jeopardyRound)
    (hd : p.doubleJeopardyRound = q.doubleJeopardyRound)
    (hf : p.finalJeopardyRound = q.finalJeopardyRound) :
    parseEpisode p = parseEpisode q := by
  rcases p with ⟨t1, j1, d1, f1⟩
  rcases q with ⟨t2, j2, d2, f2⟩
  obtain rfl : t1 = t2 := ht
  obtain rfl : j1 = j2 := hj
  obtain rfl : d1 = d2 := hd
  obtain rfl : f1 = f2 := hf
  rfl

theorem parseEpisode_content_determined_witness :
    parseEpisode w6Page = parseEpisode w6Page :=
  parseEpisode_content_determined w6Page w6Page rfl rfl rfl rfl

/-- C10: a Tiebreaker Record can only be emitted together with a Final
Jeopardy Record: the Tiebreaker detection requires a second block inside
the final-round container, whose presence already makes the Final round
detection fire. -/
theorem tiebreaker_needs_final (p : Page) (rs : List (List Record))
    (h : parseEpisode p = Except.ok rs)
    (htb : ∃ rec ∈ rs.flatten, rec.roundName = "Tiebreaker") :
    ∃ rec ∈ rs.flatten, rec.roundName = "Final Jeopardy" := by
  rcases (parseEpisode_ok_iff p rs).mp h with ⟨_, rfl⟩
  rw [episodeRounds_flatten] at htb ⊢
  rcases htb with ⟨rec, hmem, hname⟩
  rcases List.mem_append.mp hmem with h012 | h3
  · rcases List.mem_append.mp h012 with h01 | h2
    · rcases List.mem_append.mp h01 with h0 | h1
      · rw [(mem_flatJ h0).2.2] at hname
        exact absurd hname (by decide)
      · rw [(mem_flatDJ h1).2.2] at hname
        exact absurd hname (by decide)
    · rw [(mem_flatFJ h2).2.2.1] at hname
      exact absurd hname (by decide)
  · rcases p with ⟨title, j, dj, fj⟩
    cases fj with
    | none => simp [flatTB] at h3
    | some blocks =>
      obtain ⟨rec2, hrec2⟩ :
          ∃ r, parseRoundFinal blocks.head? (findEpNum title) (findAirDate title) = [r] :=
        ⟨_, rfl⟩
      have hmem2 : rec2 ∈ flatFJ ⟨title, j, dj, some blocks⟩ := by
        show rec2 ∈ parseRoundFinal blocks.head? (findEpNum title) (findAirDate title)
        rw [hrec2]
        exact List.mem_singleton.mpr rfl
      refine ⟨rec2, ?_, (mem_flatFJ hmem2).2.2.1⟩
      exact List.mem_append_left _ (List.mem_append_right _ hmem2)

theorem tiebreaker_needs_final_witness :
    ∃ rec ∈ (episodeRounds w6Page).flatten, rec.roundName = "Final Jeopardy" :=
  tiebreaker_needs_final w6Page (episodeRounds w6Page)
    ((parseEpisode_ok_iff _ _).mpr ⟨by decide, rfl⟩)
    ⟨⟨"100", "2001-02-03", "Tiebreaker", "TB CAT", "", "false", "The tiebreaker clue",
      "Who is B?"⟩, by decide, by decide⟩

/-- C8 counterexample: on a title holding a hash followed by five digits
the source pattern, an unbounded digit run, captures all five digits,
while the one-to-four-digit pattern of the claim captures only the first
four; the two results differ. -/
theorem epNum_pattern_counterexample :
    findEpNum "Show #12345, aired 2020-01-02" = "12345" ∧
    findEpNumSpec "Show #12345, aired 2020-01-02" = "1234" ∧
    ("12345" : String) ≠ "1234" := by
  decide

lemma findHashDigits_digits :
    ∀ l ds, findHashDigits l = some ds → ds ≠ [] ∧ ds.all Char.isDigit = true := by
  intro l
  induction l with
  | nil =>
    intro ds h
    cases h
  | cons c rest ih =>
    intro ds h
    simp only [findHashDigits] at h
    split at h
    · split at h
      · exact ih ds h
      · rename_i hemp
        injection h with h'
        subst h'
        refine ⟨?_, ?_⟩
        · intro hnil
          rw [hnil] at hemp
          simp at hemp
        · rw [List.all_eq_true]
          exact fun x hx => List.mem_takeWhile_imp hx
    · exact ih ds h

lemma findHashDigits_eq_none (l : List Char)
    (h : ¬ ∃ pre d post, l = pre ++ '#' :: d :: post ∧ d.isDigit = true) :
    findHashDigits l = none := by
  induction l with
  | nil => rfl
  | cons c rest ih =>
    have hrest : ¬ ∃ pre d post, rest = pre ++ '#' :: d :: post ∧ d.isDigit = true := by
      rintro ⟨pre, d, post, hl, hd⟩
      exact h ⟨c :: pre, d, post, by rw [hl]; rfl, hd⟩
    simp only [findHashDigits]
    by_cases hc : c = '#'
    · subst hc
      have hemp : ((rest.takeWhile Char.isDigit).isEmpty) = true := by
        cases rest with
        | nil => rfl
        | cons d post =>
          by_cases hd : d.isDigit
          · exact absurd ⟨[], d, post, rfl, hd⟩ h
          · simp [List.takeWhile_cons, hd]
      simp [hemp, ih hrest]
    · simp [hc, ih hrest]

lemma dateAtHead_shape {l : List Char} (h : dateAtHead l = true) :
    (l.take 10).length = 10 ∧ dateAtHead (l.take 10) = true := by
  unfold dateAtHead at h
  split at h
  · rename_i a b c d e f g h8 rest2
    exact ⟨rfl, h⟩
  · cases h

lemma dateAtHead_length {l : List Char} (h : dateAtHead l = true) : 10 ≤ l.length := by
  unfold dateAtHead at h
  split at h
  · simp only [List.length_cons]
    omega
  · cases h

lemma findDateFrom_shape :
    ∀ l m, findDateFrom l = some m → m.length = 10 ∧ dateAtHead m = true := by
  intro l
  induction l with
  | nil =>
    intro m h
    cases h
  | cons c rest ih =>
    intro m h
    simp only [findDateFrom] at h
    split at h
    · rename_i hdate
      injection h with h'
      subst h'
      exact dateAtHead_shape hdate
    · exact ih m h

lemma findDateFrom_eq_none (l : List Char)
    (h : ∀ suf, suf <:+ l → dateAtHead suf = false) :
    findDateFrom l = none := by
  induction l with
  | nil => rfl
  | cons c rest ih =>
    have h1 : dateAtHead (c :: rest) = false := h _ (List.suffix_refl _)
    simp only [findDateFrom, h1]
    exact ih (fun suf hsuf => h suf (hsuf.trans (List.suffix_cons c rest)))

lemma mem_flatten_fields {p : Page} {rec : Record} {rs : List (List Record)}
    (h : parseEpisode p = Except.ok rs) (hmem : rec ∈ rs.flatten) :
    rec.epNum = findEpNum p.title ∧ rec.airDate = findAirDate p.title := by
  rcases (parseEpisode_ok_iff p rs).mp h with ⟨_, rfl⟩
  rw [episodeRounds_flatten] at hmem
  rcases List.mem_append.mp hmem with h012 | h3
  · rcases List.mem_append.mp h012 with h01 | h2
    · rcases List.mem_append.mp h01 with h0 | h1
      · exact ⟨(mem_flatJ h0).1, (mem_flatJ h0).2.1⟩
      · exact ⟨(mem_flatDJ h1).1, (mem_flatDJ h1).2.1⟩
    · exact ⟨(mem_flatFJ h2).1, (mem_flatFJ h2).2.1⟩
  · exact ⟨(mem_flatTB h3).1, (mem_flatTB h3).2.1⟩

/-- C8 amended: the episode number is captured by the source pattern (a
hash followed by an unbounded run of one or more digits, leftmost match)
and the air date by the ten-character digit-digit-digit-digit dash
digit-digit dash digit-digit pattern; both are copied into every emitted
Record, both default to the empty string when their pattern has no match
in the title, the captured fields have the matched shape, and the title
never decides success or failure of the episode. -/
theorem titleFields_amended :
    (∀ (p : Page) (rs : List (List Record)) (rec : Record),
      parseEpisode p = Except.ok rs → rec ∈ rs.flatten →
        rec.epNum = findEpNum p.title ∧ rec.airDate = findAirDate p.title) ∧
    (∀ title : String, findEpNum title = "" ∨
      ((findEpNum title).data ≠ [] ∧ (findEpNum title).data.all Char.isDigit = true)) ∧
    (∀ title : String,
      (¬ ∃ pre d post, title.data = pre ++ '#' :: d :: post ∧ d.isDigit = true) →
        findEpNum title = "") ∧
    (∀ title : String, findAirDate title = "" ∨
      ((findAirDate title).data.length = 10 ∧
        dateAtHead (findAirDate title).data = true)) ∧
    (∀ title : String,
      (∀ suf, suf <:+ title.data → dateAtHead suf = false) → findAirDate title = "") ∧
    (∀ (p : Page) (t₂ : String),
      (parseEpisode p).isOk =
        (parseEpisode ⟨t₂, p.jeopardyRound, p.doubleJeopardyRound,
          p.finalJeopardyRound⟩).isOk) := by
  refine ⟨?_, ?_, ?_, ?_, ?_, ?_⟩
  · intro p rs rec h hmem
    exact mem_flatten_fields h hmem
  · intro title
    cases hfd : findHashDigits title.data with
    | none =>
      left
      simp [findEpNum, hfd]
    | some ds =>
      right
      have hds := findHashDigits_digits title.data ds hfd
      have hdata : (findEpNum title).data = ds := by
        simp [findEpNum, hfd]
      rw [hdata]
      refine ⟨?_, hds.2⟩
      intro hnil
      exact hds.1 hnil
  · intro title h
    simp [findEpNum, findHashDigits_eq_none title.data h]
  · intro title
    cases hfd : findDateFrom title.data with
    | none =>
      left
      simp [findAirDate, hfd]
    | some m =>
      right
      have hm := findDateFrom_shape title.data m hfd
      have hdata : (findAirDate title).data = m := by
        simp [findAirDate, hfd]
      rw [hdata]
      exact ⟨hm.1, hm.2⟩
  · intro title h
    simp [findAirDate, findDateFrom_eq_none title.data h]
  · intro p t₂
    rcases p with ⟨t₁, j, dj, fj⟩
    by_cases hnil : episodeRounds ⟨t₁, j, dj, fj⟩ = []
    · have hnil2 : episodeRounds ⟨t₂, j, dj, fj⟩ = [] := by
        rw [episodeRounds_eq_nil_iff] at hnil ⊢
        exact hnil
      simp [parseEpisode, hnil, hnil2]
    · have hnil2 : episodeRounds ⟨t₂, j, dj, fj⟩ ≠ [] := fun hx =>
        hnil (by rw [episodeRounds_eq_nil_iff] at hx ⊢; exact hx)
      have hE1 : (episodeRounds ⟨t₁, j, dj, fj⟩).isEmpty = false := by
        simp [hnil]
      have hE2 : (episodeRounds ⟨t₂, j, dj, fj⟩).isEmpty = false := by
        simp [hnil2]
      simp only [parseEpisode, hE1, hE2, Bool.false_eq_true, if_false]
      rfl

theorem titleFields_amended_witness :
    ((⟨"100", "2001-02-03", "Final Jeopardy", "FINAL CAT", "$10,000", "false",
        "The final clue", "Who is A?"⟩ : Record).epNum = findEpNum w6Page.title ∧
      (⟨"100", "2001-02-03", "Final Jeopardy", "FINAL CAT", "$10,000", "false",
        "The final clue", "Who is A?"⟩ : Record).airDate = findAirDate w6Page.title) ∧
    findEpNum "Jeopardy round" = "" ∧
    findAirDate "Show #42" = "" ∧
    (findEpNum w6Page.title = "" ∨ ((findEpNum w6Page.title).data ≠ [] ∧
      (findEpNum w6Page.title).data.all Char.isDigit = true)) :=
  ⟨titleFields_amended.1 w6Page (episodeRounds w6Page)
      ⟨"100", "2001-02-03", "Final Jeopardy", "FINAL CAT", "$10,000", "false",
        "The final clue", "Who is A?"⟩
      ((parseEpisode_ok_iff _ _).mpr ⟨by decide, rfl⟩) (by decide),
   titleFields_amended.2.2.1 "Jeopardy round"
     (by
       rintro ⟨pre, d, post, hl, _⟩
       have hmem : '#' ∈ ("Jeopardy round" : String).data := by
         rw [hl]
         simp
       exact absurd hmem (by decide)),
   titleFields_amended.2.2.2.2.1 "Show #42"
     (by
       intro suf hsuf
       cases hd : dateAtHead suf with
       | false => rfl
       | true =>
         have h10 := dateAtHead_length hd
         have hlen := hsuf.length_le
         have hlen8 : ("Show #42" : String).data.length = 8 := by decide
         omega),
   titleFields_amended.2.1 w6Page.title⟩

/-- C4 counterexample: the Final Jeopardy Record built from a fragment
with two wager cells carries value "$10,000,$5,000", which holds a
currency symbol and commas and is neither a digit string nor the
sentinel. -/
theorem finalValue_not_normalized :
    (parseRoundFinal (some w4Final) "1" "2020-01-01").map Record.value =
      ["$10,000,$5,000"] ∧
    valueNormalForm "$10,000,$5,000" = false ∧
    '$' ∈ ("$10,000,$5,000" : String).data ∧
    ',' ∈ ("$10,000,$5,000" : String).data := by
  decide

lemma removeCommas_no_comma (s : String) : ',' ∉ (removeCommas s).data := by
  intro hmem
  simp only [removeCommas] at hmem
  have := List.of_mem_filter hmem
  simp at this

lemma strDropLeading_no_comma {s : String} (h : ',' ∉ s.data) (p : String) :
    ',' ∉ (strDropLeading s p).data := by
  unfold strDropLeading
  by_cases hp : strStarts s p
  · rw [if_pos hp]
    intro hmem
    exact h (List.mem_of_mem_drop hmem)
  · rw [if_neg hp]
    exact h

lemma normalizeValue_no_comma (raw : String) : ',' ∉ (normalizeValue raw).data := by
  unfold normalizeValue
  by_cases hempty : raw = ""
  · rw [if_pos hempty]
    decide
  · rw [if_neg hempty]
    exact strDropLeading_no_comma (removeCommas_no_comma _) _

lemma normalizeValue_dollar_digits {raw : String} {ds : List Char}
    (hd : raw.data = '$' :: ds)
    (hall : ds.all (fun c => c.isDigit || c == ',') = true)
    (hsome : ds.any Char.isDigit = true) :
    valueNormalForm (normalizeValue raw) = true := by
  have hne : raw ≠ "" := by
    intro h
    rw [h] at hd
    have hnil : ([] : List Char) = '$' :: ds := hd
    exact List.cons_ne_nil '$' ds hnil.symm
  have hnD : strStarts raw "D: $" = false := by
    unfold strStarts
    rw [hd]
    simp [List.isPrefixOf]
  have h1 : strDropLeading raw "D: $" = raw := by
    unfold strDropLeading
    simp [hnD]
  have h2 : (removeCommas raw).data = '$' :: ds.filter (fun c => !(c == ',')) := by
    simp [removeCommas, hd, List.filter_cons]
  have h3 : strStarts (removeCommas raw) "$" = true := by
    unfold strStarts
    rw [h2]
    simp [List.isPrefixOf]
  have h4 : (strDropLeading (removeCommas raw) "$").data =
      ds.filter (fun c => !(c == ',')) := by
    unfold strDropLeading
    rw [if_pos h3]
    show ((removeCommas raw).data.drop ("$".data.length)) = _
    rw [h2]
    rfl
  have hval : (normalizeValue raw).data = ds.filter (fun c => !(c == ',')) := by
    unfold normalizeValue
    rw [if_neg hne, h1]
    exact h4
  rcases List.any_eq_true.mp hsome with ⟨d, hdmem, hddig⟩
  have hdc : (d == ',') = false := by
    cases hb : (d == ',') with
    | false => rfl
    | true =>
      have : d = ',' := by simpa using hb
      rw [this] at hddig
      exact absurd hddig (by decide)
  have hdfil : d ∈ ds.filter (fun c => !(c == ',')) :=
    List.mem_filter.mpr ⟨hdmem, by rw [hdc]; rfl⟩
  have hvne : (normalizeValue raw).data ≠ [] := by
    rw [hval]
    exact List.ne_nil_of_mem hdfil
  have hvdig : (normalizeValue raw).data.all Char.isDigit = true := by
    rw [hval, List.all_eq_true]
    intro x hx
    rcases List.mem_filter.mp hx with ⟨hxmem, hxne⟩
    have hx2 := List.all_eq_true.mp hall x hxmem
    cases hdig : x.isDigit with
    | true => rfl
    | false =>
      rw [hdig] at hx2
      simp only [Bool.false_or] at hx2
      rw [hx2] at hxne
      exact absurd hxne (by decide)
  have hsne : decide (normalizeValue raw ≠ "") = true := by
    rw [decide_eq_true_eq]
    intro h
    rw [h] at hvne
    exact hvne rfl
  unfold valueNormalForm
  rw [hsne, hvdig]
  rfl

/-- C4 amended: a grid Record carries the normalizer output of its
trimmed raw value text; that output never contains a comma, is the
sentinel for empty raw text, and is a non-empty digit string whenever
the raw text is a dollar sign followed by digits with optional comma
separators; a Final Jeopardy Record instead carries the comma-join of
the trimmed fragment cell texts (empty without a fragment), which can
retain currency symbols and commas, and a Tiebreaker Record always
carries the empty string. -/
theorem valueField_shape :
    (∀ categories e a rn x c, (mkClueRecord categories e a rn x c).value =
      normalizeValue (strTrimSpace c.clueValueText)) ∧
    (∀ raw : String, ',' ∉ (normalizeValue raw).data) ∧
    normalizeValue "" = "-100" ∧
    (∀ (raw : String) (ds : List Char), raw.data = '$' :: ds →
      ds.all (fun c => c.isDigit || c == ',') = true →
      ds.any Char.isDigit = true →
      valueNormalForm (normalizeValue raw) = true) ∧
    (∀ t e a, (parseRoundFinal (some t) e a).map Record.value =
      [match t.mouseover with
       | some frag => String.intercalate "," (frag.tdTexts.map strTrimSpace)
       | none => ""]) ∧
    (∀ t? e a, (parseRoundTiebreaker t? e a).map Record.value = [""]) := by
  refine ⟨?_, normalizeValue_no_comma, rfl, ?_, ?_, ?_⟩
  · intro categories e a rn x c
    rfl
  · intro raw ds hd hall hsome
    exact normalizeValue_dollar_digits hd hall hsome
  · intro t e a
    cases hm : t.mouseover <;> simp [parseRoundFinal, hm]
  · intro t? e a
    cases t? <;> rfl

theorem valueField_shape_witness :
    (mkClueRecord ["C"] "1" "2" "Jeopardy" 0 w1CellA).value =
      normalizeValue (strTrimSpace w1CellA.clueValueText) ∧
    ',' ∉ (normalizeValue "DD: $1,200").data ∧
    normalizeValue "" = "-100" ∧
    valueNormalForm (normalizeValue "$1,200") = true ∧
    ((parseRoundFinal (some w4Final) "1" "2").map Record.value =
      [match w4Final.mouseover with
       | some frag => String.intercalate "," (frag.tdTexts.map strTrimSpace)
       | none => ""]) ∧
    (parseRoundTiebreaker (some w6b) "1" "2").map Record.value = [""] :=
  ⟨valueField_shape.1 ["C"] "1" "2" "Jeopardy" 0 w1CellA,
   valueField_shape.2.1 "DD: $1,200",
   valueField_shape.2.2.1,
   valueField_shape.2.2.2.1 "$1,200" ("1,200" : String).data (by decide) (by decide)
     (by decide),
   valueField_shape.2.2.2.2.1 w4Final "1" "2",
   valueField_shape.2.2.2.2.2 (some w6b) "1" "2"⟩

